import Mathlib

/-!
Shallow embedding of the particle/state core of the `neofaunus` Monte Carlo
engine (`src/core.h`, `src/molecule.h`) and proofs about it.

Conventions:
- C++ `double` fields are embedded as `ℚ`; only order/equality facts are used.
- Iterators into the shared particle buffer are embedded as `Nat` offsets.
- `throw std::runtime_error` is embedded as `Except.error` with the same
  message string; `assert` (debug-only) is not part of the release semantics
  and is therefore not embedded, but is referred to when classifying bugs.
-/

namespace Faunus

/-- Three-component vector (`Faunus::Point`, i.e. `Eigen::Vector3d`). -/
structure Point where
  x : ℚ
  y : ℚ
  z : ℚ
deriving DecidableEq, Repr

/-- Particle with an integer type id and a position; the capability mix-ins
(charge, radius, dipole, ...) are irrelevant to the claims below and are
represented by the fields that the claims inspect. -/
structure Particle where
  id : Int
  pos : Point
deriving DecidableEq, Repr

/-! ## ElasticRange (`src/core.h` lines 1238-1274)

The C++ class wraps iterators `begin ≤ end ≤ _trueend` into a `std::vector`.
We embed the capacity window `[begin, _trueend)` as the list `xs` and the
active count `end - begin` as `nact`; `begin` is offset 0. -/

/-- Elastic range: the capacity window `[begin, trueend)` as a list plus the
number of active elements (`end() - begin()`). -/
structure ElasticRange (α : Type) where
  xs : List α
  nact : Nat
deriving DecidableEq, Repr

/-- Active window `[begin, end)`. -/
def ElasticRange.active {α : Type} (r : ElasticRange α) : List α :=
  r.xs.take r.nact

/-- Inactive window `[end, trueend)` (the C++ `inactive()` sub-range). -/
def ElasticRange.inactivePart {α : Type} (r : ElasticRange α) : List α :=
  r.xs.drop r.nact

/-- The C++ `size() = end() - begin()`. -/
def ElasticRange.size {α : Type} (r : ElasticRange α) : Nat :=
  r.nact

/-- The C++ `capacity() = trueend - begin()`. -/
def ElasticRange.capacity {α : Type} (r : ElasticRange α) : Nat :=
  r.xs.length

/-- The C++ `deactivate(first, last)` with `first = begin()+f`,
`last = begin()+l`.  Source: `std::rotate(begin(), last, end()); end() -= n;`
with `n = last - first` — note that the rotation pivots at `last` over the
whole active window starting at `begin()`, not at `first`. -/
def ElasticRange.deactivate {α : Type} (r : ElasticRange α) (f l : Nat) :
    ElasticRange α :=
  let n := l - f
  let act := r.xs.take r.nact
  let inact := r.xs.drop r.nact
  { xs := (act.drop l ++ act.take l) ++ inact, nact := r.nact - n }

/-- The C++ `activate(first, last)` with `first = begin()+f`, `last = begin()+l`
(absolute offsets, `nact ≤ f`).  Source:
`std::rotate(end(), first, _trueend); end() += n;` with `n = last - first`. -/
def ElasticRange.activate {α : Type} (r : ElasticRange α) (f l : Nat) :
    ElasticRange α :=
  let n := l - f
  let k := f - r.nact
  let act := r.xs.take r.nact
  let inact := r.xs.drop r.nact
  { xs := act ++ (inact.drop k ++ inact.take k), nact := r.nact + n }

/-- One deactivate/activate call with its span, as offsets from `begin()`. -/
inductive ROp where
  | deact (f l : Nat)
  | act (f l : Nat)
deriving DecidableEq, Repr

/-- Apply one operation. -/
def ElasticRange.applyOp {α : Type} (r : ElasticRange α) : ROp → ElasticRange α
  | .deact f l => r.deactivate f l
  | .act f l => r.activate f l

/-- Span precondition of one operation: `deactivate` requires
`begin() ≤ first ≤ last ≤ end()`, `activate` requires
`end() ≤ first ≤ last ≤ trueend` (doc contract of the two members). -/
def ElasticRange.validOp {α : Type} (r : ElasticRange α) : ROp → Bool
  | .deact f l => decide (f ≤ l) && decide (l ≤ r.nact)
  | .act f l => decide (r.nact ≤ f) && decide (f ≤ l) && decide (l ≤ r.xs.length)

/-- Run a sequence of operations. -/
def ElasticRange.runOps {α : Type} (r : ElasticRange α) : List ROp → ElasticRange α
  | [] => r
  | op :: rest => (r.applyOp op).runOps rest

/-- Every operation of the sequence satisfies its span precondition in the
state in which it is executed. -/
def ElasticRange.validOps {α : Type} (r : ElasticRange α) : List ROp → Bool
  | [] => true
  | op :: rest => r.validOp op && (r.applyOp op).validOps rest

/-- Rotating a list (drop-then-take swap) is a permutation. -/
theorem rotate_split_perm {α : Type} (a : List α) (l : Nat) :
    (a.drop l ++ a.take l).Perm a := by
  have h := @List.perm_append_comm α (a.drop l) (a.take l)
  simpa [List.take_append_drop] using h

/-- Both operations permute the capacity window. -/
theorem ElasticRange.applyOp_perm {α : Type} (r : ElasticRange α) (op : ROp) :
    (r.applyOp op).xs.Perm r.xs := by
  cases op with
  | deact f l =>
      have h := (rotate_split_perm (r.xs.take r.nact) l).append
        (List.Perm.refl (r.xs.drop r.nact))
      simpa [applyOp, deactivate, List.take_append_drop] using h
  | act f l =>
      have h := (List.Perm.refl (r.xs.take r.nact)).append
        (rotate_split_perm (r.xs.drop r.nact) (f - r.nact))
      simpa [applyOp, activate, List.take_append_drop] using h

/-- A valid operation keeps the active count within the capacity. -/
theorem ElasticRange.applyOp_nact_le {α : Type} (r : ElasticRange α) (op : ROp)
    (hle : r.nact ≤ r.xs.length) (hv : r.validOp op = true) :
    (r.applyOp op).nact ≤ (r.applyOp op).xs.length := by
  have hlen : (r.applyOp op).xs.length = r.xs.length :=
    (r.applyOp_perm op).length_eq
  rw [hlen]
  cases op with
  | deact f l =>
      simp only [applyOp, deactivate]
      omega
  | act f l =>
      simp only [validOp, Bool.and_eq_true, decide_eq_true_eq] at hv
      simp only [applyOp, activate]
      omega

/-- Running valid operations preserves the capacity-window multiset and keeps
the active count within capacity. -/
theorem ElasticRange.runOps_perm_nact {α : Type} (r : ElasticRange α)
    (ops : List ROp) (hle : r.nact ≤ r.xs.length)
    (hv : r.validOps ops = true) :
    (r.runOps ops).xs.Perm r.xs ∧ (r.runOps ops).nact ≤ (r.runOps ops).xs.length := by
  induction ops generalizing r with
  | nil => exact ⟨List.Perm.refl _, by simpa [runOps] using hle⟩
  | cons op rest ih =>
      simp only [validOps, Bool.and_eq_true] at hv
      have h1 := r.applyOp_perm op
      have h2 := r.applyOp_nact_le op hle hv.1
      have := ih (r.applyOp op) h2 hv.2
      exact ⟨this.1.trans h1, this.2⟩

/-- C2: for every elastic range whose active count is within its capacity and
every sequence of deactivate/activate calls satisfying the span preconditions,
afterwards `size() + inactive().size() == capacity()` holds and the multiset of
elements stored in `[begin, trueEnd)` equals the initial multiset. -/
theorem C2_elastic_invariants {α : Type} (r : ElasticRange α) (ops : List ROp)
    (hle : r.nact ≤ r.xs.length) (hv : r.validOps ops = true) :
    (r.runOps ops).size + (r.runOps ops).inactivePart.length
        = (r.runOps ops).capacity ∧
    (Multiset.ofList (r.runOps ops).xs) = Multiset.ofList r.xs := by
  obtain ⟨hperm, hnact⟩ := r.runOps_perm_nact ops hle hv
  constructor
  · simp only [ElasticRange.size, ElasticRange.inactivePart, ElasticRange.capacity,
      List.length_drop]
    omega
  · exact Multiset.coe_eq_coe.mpr hperm

/-- Witness for C2 at a concrete range and operation sequence. -/
theorem C2_elastic_invariants_witness :
    ((6 : Nat) ≤ 6 ∧
      (ElasticRange.mk [10, 20, 30, 40, 50, 60] 6 : ElasticRange Int).validOps
        [ROp.deact 1 3, ROp.act 4 6] = true) ∧
    (((ElasticRange.mk [10, 20, 30, 40, 50, 60] 6 : ElasticRange Int).runOps
          [ROp.deact 1 3, ROp.act 4 6]).size +
        ((ElasticRange.mk [10, 20, 30, 40, 50, 60] 6 : ElasticRange Int).runOps
          [ROp.deact 1 3, ROp.act 4 6]).inactivePart.length
      = ((ElasticRange.mk [10, 20, 30, 40, 50, 60] 6 : ElasticRange Int).runOps
          [ROp.deact 1 3, ROp.act 4 6]).capacity ∧
      Multiset.ofList ((ElasticRange.mk [10, 20, 30, 40, 50, 60] 6 :
          ElasticRange Int).runOps [ROp.deact 1 3, ROp.act 4 6]).xs
        = Multiset.ofList [10, 20, 30, 40, 50, 60]) :=
  ⟨⟨by decide, by decide⟩,
    C2_elastic_invariants (ElasticRange.mk [10, 20, 30, 40, 50, 60] 6)
      [ROp.deact 1 3, ROp.act 4 6] (by decide) (by decide)⟩

/-- C3 counterexample: on the elastic range over `{10,20,30,40,50,60}`,
deactivating the span at offsets `[1,3)` does NOT leave the active window
equal to the sequence `{10,40,50,60}` (the code rotates the whole active
window at `last`, producing `{40,50,60,10}`), so the claim as stated is
false at this concrete input. -/
theorem C3_counterexample :
    ¬ (((ElasticRange.mk [10, 20, 30, 40, 50, 60] 6 : ElasticRange Int).deactivate
          1 3).active = [10, 40, 50, 60] ∧
        ((ElasticRange.mk [10, 20, 30, 40, 50, 60] 6 : ElasticRange Int).deactivate
          1 3).xs.get? 4 = some 20 ∧
        ((ElasticRange.mk [10, 20, 30, 40, 50, 60] 6 : ElasticRange Int).deactivate
          1 3).xs.get? 5 = some 30) := by
  decide

/-- C3 amended: deactivating offsets `[1,3)` of the range over
`{10,20,30,40,50,60}` leaves the active window equal to `{40,50,60,10}`
(elements after the span first, then those before; same multiset as the claim
but rotated), with `20` readable at `end()` and `30` at `end()+1`; a subsequent
activate of the two elements starting at `end()` yields active size 6 with `20`
at `end()-2` and `30` at `end()-1`. -/
theorem C3_amended_deactivate_activate :
    (((ElasticRange.mk [10, 20, 30, 40, 50, 60] 6 : ElasticRange Int).deactivate
        1 3).active = [40, 50, 60, 10] ∧
      ((ElasticRange.mk [10, 20, 30, 40, 50, 60] 6 : ElasticRange Int).deactivate
        1 3).xs.get? 4 = some 20 ∧
      ((ElasticRange.mk [10, 20, 30, 40, 50, 60] 6 : ElasticRange Int).deactivate
        1 3).xs.get? 5 = some 30) ∧
    ((((ElasticRange.mk [10, 20, 30, 40, 50, 60] 6 : ElasticRange Int).deactivate
        1 3).activate 4 6).size = 6 ∧
      (((ElasticRange.mk [10, 20, 30, 40, 50, 60] 6 : ElasticRange Int).deactivate
        1 3).activate 4 6).xs.get? 4 = some 20 ∧
      (((ElasticRange.mk [10, 20, 30, 40, 50, 60] 6 : ElasticRange Int).deactivate
        1 3).activate 4 6).xs.get? 5 = some 30) := by
  decide

/-! ## Change (`src/core.h` lines 1450-1481) -/

/-- Per-group entry of a `Change` (`Change::data`). -/
structure ChangeData where
  index : Nat
  all : Bool := false
  atoms : List Nat := []
  activated : List (Nat × Nat) := []
  deactivated : List (Nat × Nat) := []
deriving DecidableEq, Repr

/-- Change descriptor: volume change plus touched groups. -/
structure Change where
  dV : ℚ := 0
  groups : List ChangeData := []
deriving DecidableEq, Repr

/-- The C++ `Change::empty()`, verbatim:
`if (groups.empty()) if (std::fabs(dV)>0) return true; return false;`. -/
def Change.empty (c : Change) : Bool :=
  if c.groups.isEmpty then
    if |c.dV| > 0 then true else false
  else false

/-- What the spec states `Change::empty` does: true iff no groups are recorded
and the volume delta is zero. -/
def Change.emptySpec (c : Change) : Bool :=
  c.groups.isEmpty && decide (c.dV = 0)

/-- C4 (code bug): on the cleared change (no groups, `dV = 0`) the code's
`empty()` returns `false` although the claim (and `Change::clear`'s own
`assert(empty())`) requires `true`; with no groups and `dV = 1` it returns
`true` although the claim requires `false`.  The condition is inverted in the
source. -/
theorem C4_empty_bug :
    Change.empty { dV := 0, groups := [] } = false ∧
    Change.emptySpec { dV := 0, groups := [] } = true ∧
    Change.empty { dV := 1, groups := [] } = true ∧
    Change.emptySpec { dV := 1, groups := [] } = false := by
  decide

/-! ## Periodic boundary conditions (`src/core.h` lines 774-885)

`Box` stores `len`, `len_half`, `len_inv`; `setLength` derives the latter two.
`PBC<X,Y,Z>::vdist` applies at most one side-length correction per enabled
axis.  `len_inv` only matters for `boundary()`, which no claim needs. -/

/-- Cuboidal box state set by `Box::setLength` (the `len_inv` member is used
only by `boundary()` and is omitted). -/
structure Box where
  len : Point
  len_half : Point
deriving DecidableEq, Repr

/-- The C++ `Box::setLength(l)`: stores `l` and `l*0.5`. -/
def Box.setLength (l : Point) : Box :=
  { len := l, len_half := ⟨l.x / 2, l.y / 2, l.z / 2⟩ }

/-- One axis of `PBC::vdist`: single side-length correction when the component
exceeds half the side length, applied only when the axis is periodic. -/
def vdistAxis (enabled : Bool) (len lenHalf r : ℚ) : ℚ :=
  if enabled then
    if r > lenHalf then r - len
    else if r < -lenHalf then r + len
    else r
  else r

/-- The C++ `PBC<X,Y,Z>::vdist(a, b)`: componentwise minimum-image vector of
`a - b` with per-axis periodicity toggles. -/
def PBC.vdist (X Y Z : Bool) (b : Box) (p q : Point) : Point :=
  ⟨vdistAxis X b.len.x b.len_half.x (p.x - q.x),
    vdistAxis Y b.len.y b.len_half.y (p.y - q.y),
    vdistAxis Z b.len.z b.len_half.z (p.z - q.z)⟩

/-- C5 counterexample: the minimum-image component bound does not hold for all
point pairs — on the fully periodic box of side lengths `(2,2,2)` with
`a = (10,0,0)` and `b = (0,0,0)`, the x component of `vdist(a,b)` is `8`,
which exceeds `L_x / 2 = 1` on the periodicity-enabled x axis (the code
applies a single correction, never iterating). -/
theorem C5_counterexample :
    ¬ (|(PBC.vdist true true true (Box.setLength ⟨2, 2, 2⟩)
          ⟨10, 0, 0⟩ ⟨0, 0, 0⟩).x| ≤ 2 / 2) := by
  norm_num [PBC.vdist, vdistAxis, Box.setLength]

/-- Single-axis bound: one correction suffices when the raw component is within
one and a half side lengths. -/
theorem vdistAxis_bound (len r : ℚ) (hL : 0 ≤ len) (hr : |r| ≤ 3 * len / 2) :
    |vdistAxis true len (len / 2) r| ≤ len / 2 := by
  simp only [vdistAxis, if_true]
  rw [abs_le] at hr
  split_ifs with h1 h2
  · rw [abs_le]; constructor <;> linarith
  · rw [abs_le]; constructor <;> linarith
  · rw [abs_le]; push_neg at h1 h2; constructor <;> linarith

/-- C5 amended: for every pair of points and every periodic box with
nonnegative side lengths `L`, each component of `vdist(a,b)` on a
periodicity-enabled axis satisfies `|component| ≤ L_i/2`, provided the raw
difference on that axis is within `3 L_i / 2` (the single-correction regime the
spec requires callers to stay in). -/
theorem C5_amended_vdist_bound (X Y Z : Bool) (L p q : Point)
    (hLx : 0 ≤ L.x) (hLy : 0 ≤ L.y) (hLz : 0 ≤ L.z) :
    (X = true → |p.x - q.x| ≤ 3 * L.x / 2 →
      |(PBC.vdist X Y Z (Box.setLength L) p q).x| ≤ L.x / 2) ∧
    (Y = true → |p.y - q.y| ≤ 3 * L.y / 2 →
      |(PBC.vdist X Y Z (Box.setLength L) p q).y| ≤ L.y / 2) ∧
    (Z = true → |p.z - q.z| ≤ 3 * L.z / 2 →
      |(PBC.vdist X Y Z (Box.setLength L) p q).z| ≤ L.z / 2) := by
  refine ⟨fun hX h => ?_, fun hY h => ?_, fun hZ h => ?_⟩
  · subst hX
    simpa [PBC.vdist, Box.setLength] using vdistAxis_bound L.x (p.x - q.x) hLx h
  · subst hY
    simpa [PBC.vdist, Box.setLength] using vdistAxis_bound L.y (p.y - q.y) hLy h
  · subst hZ
    simpa [PBC.vdist, Box.setLength] using vdistAxis_bound L.z (p.z - q.z) hLz h

/-- Witness for C5 (amended) at the fully periodic `(2,3,4)` box. -/
theorem C5_amended_vdist_bound_witness :
    |(PBC.vdist true true true (Box.setLength ⟨2, 3, 4⟩)
        ⟨2, 1, -3⟩ ⟨0, 0, 0⟩).x| ≤ 2 / 2 ∧
    |(PBC.vdist true true true (Box.setLength ⟨2, 3, 4⟩)
        ⟨2, 1, -3⟩ ⟨0, 0, 0⟩).y| ≤ 3 / 2 ∧
    |(PBC.vdist true true true (Box.setLength ⟨2, 3, 4⟩)
        ⟨2, 1, -3⟩ ⟨0, 0, 0⟩).z| ≤ 4 / 2 := by
  have h := C5_amended_vdist_bound true true true ⟨2, 3, 4⟩ ⟨2, 1, -3⟩ ⟨0, 0, 0⟩
    (by norm_num) (by norm_num) (by norm_num)
  exact ⟨h.1 rfl (by norm_num), h.2.1 rfl (by norm_num), h.2.2 rfl (by norm_num)⟩

/-! ## Group (`src/core.h` lines 1314-1388) and Space (lines 1483-1566)

A `Group` is an `ElasticRange` whose iterators point into the owning Space's
shared particle buffer; we embed the three range endpoints as offsets into
that buffer.  `IterRange::resize(n)` is `end() += n` (its debug assert
`size()==n` documents the intended postcondition). -/

/-- Group over the shared particle buffer: window endpoints as buffer offsets
plus molecule id, atomic flag and cached mass center. -/
structure GroupRec where
  beginOff : Nat
  endOff : Nat
  trueEndOff : Nat
  id : Int := -1
  atomic : Bool := false
  cm : Point := ⟨0, 0, 0⟩
deriving DecidableEq, Repr

/-- The C++ `Group::size() = end() - begin()`. -/
def GroupRec.size (g : GroupRec) : Nat :=
  g.endOff - g.beginOff

/-- The C++ `Group::capacity() = trueend - begin()`. -/
def GroupRec.capacity (g : GroupRec) : Nat :=
  g.trueEndOff - g.beginOff

/-- The C++ `Group::operator=`: throws `"capacity mismatch"` on differing
capacities; otherwise calls `resize(o.size())` — which is `end() += o.size()`
— and copies `id`, `atomic` and `cm`.  The underlying particle elements are
not copied (the `std::copy` line is commented out in the source). -/
def groupAssign (go gn : GroupRec) : Except String GroupRec :=
  if go.capacity ≠ gn.capacity then .error "capacity mismatch"
  else .ok { go with
    endOff := go.endOff + gn.size,
    id := gn.id,
    atomic := gn.atomic,
    cm := gn.cm }

/-- Space: particle buffer (with its `std::vector` capacity) and group list.
The geometry member plays no role in the claims below. -/
structure SpaceRec where
  p : List Particle
  pcap : Nat
  groups : List GroupRec
deriving DecidableEq, Repr

/-- Copy loop of `Space::sync` for one group entry when `all` is false:
`for (auto i : m.atoms) *(go.begin()+i) = *(gn.begin()+i);` reading from the
trial buffer and writing into the accepted buffer. -/
def copyAtoms (trp : List Particle) (gnBegin goBegin : Nat) :
    List Nat → List Particle → List Particle
  | [], pb => pb
  | i :: rest, pb =>
      copyAtoms trp gnBegin goBegin rest
        (match trp.get? (gnBegin + i) with
          | some v => pb.set (goBegin + i) v
          | none => pb)

/-- Whole-group copy of `Space::sync` when `all` is true:
`std::copy(gn.begin(), gn.end(), go.begin())`. -/
def copyAll (trp : List Particle) (gnBegin goBegin n : Nat)
    (pb : List Particle) : List Particle :=
  copyAtoms trp gnBegin goBegin (List.range n) pb

/-- One iteration of the `Space::sync` loop: fetch both groups at the entry's
index (`std::vector::at` throws `out_of_range` on a bad index), assign the
trial group onto the accepted one, then copy either every active particle or
just the listed offsets. -/
def syncStep (acc : SpaceRec) (tr : SpaceRec) (m : ChangeData) :
    Except String SpaceRec :=
  match acc.groups.get? m.index, tr.groups.get? m.index with
  | some go, some gn =>
      match groupAssign go gn with
      | .error e => .error e
      | .ok go' =>
          let p' := if m.all then copyAll tr.p gn.beginOff go.beginOff gn.size acc.p
            else copyAtoms tr.p gn.beginOff go.beginOff m.atoms acc.p
          .ok { acc with p := p', groups := acc.groups.set m.index go' }
  | _, _ => .error "out_of_range"

/-- The loop of `Space::sync` over the change's group entries. -/
def syncGroups (tr : SpaceRec) : SpaceRec → List ChangeData → Except String SpaceRec
  | acc, [] => .ok acc
  | acc, m :: rest =>
      match syncStep acc tr m with
      | .error e => .error e
      | .ok a2 => syncGroups tr a2 rest

/-- The C++ `Space::sync(o, change)` on the accepted space `acc` with trial
space `tr`. -/
def SpaceRec.sync (acc : SpaceRec) (tr : SpaceRec) (c : Change) :
    Except String SpaceRec :=
  syncGroups tr acc c.groups

/-- C1: for an accepted and a trial Space whose group `g` occupies the same
window (identical group topology), syncing with a Change whose single entry
for group `g` lists touched offsets `{2,5}` with `allChanged = false` succeeds,
makes the accepted particles at offsets 2 and 5 of group `g` equal the trial's
particles at those offsets, and leaves every other particle-buffer position
and every other group record unchanged from its pre-sync value. -/
theorem C1_sync_frame (acc tr : SpaceRec) (dV : ℚ) (g : Nat) (go gn : GroupRec)
    (hgo : acc.groups[g]? = some go) (hgn : tr.groups[g]? = some gn)
    (hb : gn.beginOff = go.beginOff) (hcap : go.capacity = gn.capacity)
    (h2t : go.beginOff + 2 < tr.p.length) (h5t : go.beginOff + 5 < tr.p.length)
    (h2a : go.beginOff + 2 < acc.p.length) (h5a : go.beginOff + 5 < acc.p.length) :
    ∃ s' : SpaceRec,
      acc.sync tr { dV := dV, groups := [⟨g, false, [2, 5], [], []⟩] } = .ok s' ∧
      s'.p[go.beginOff + 2]? = tr.p[go.beginOff + 2]? ∧
      s'.p[go.beginOff + 5]? = tr.p[go.beginOff + 5]? ∧
      (∀ j, j ≠ go.beginOff + 2 → j ≠ go.beginOff + 5 →
        s'.p[j]? = acc.p[j]?) ∧
      (∀ k, k ≠ g → s'.groups[k]? = acc.groups[k]?) := by
  obtain ⟨v2, hv2⟩ : ∃ v, tr.p[gn.beginOff + 2]? = some v := by
    rw [hb]; exact ⟨_, List.getElem?_eq_getElem h2t⟩
  obtain ⟨v5, hv5⟩ : ∃ v, tr.p[gn.beginOff + 5]? = some v := by
    rw [hb]; exact ⟨_, List.getElem?_eq_getElem h5t⟩
  have hcopy : copyAtoms tr.p gn.beginOff go.beginOff [2, 5] acc.p
      = (acc.p.set (go.beginOff + 2) v2).set (go.beginOff + 5) v5 := by
    simp [copyAtoms, hv2, hv5]
  have hstep : acc.sync tr { dV := dV, groups := [⟨g, false, [2, 5], [], []⟩] }
      = .ok { acc with
          p := (acc.p.set (go.beginOff + 2) v2).set (go.beginOff + 5) v5,
          groups := acc.groups.set g { go with
            endOff := go.endOff + gn.size,
            id := gn.id, atomic := gn.atomic, cm := gn.cm } } := by
    simp [SpaceRec.sync, syncGroups, syncStep, hgo, hgn, groupAssign, hcap, hcopy]
  refine ⟨_, hstep, ?_, ?_, ?_, ?_⟩
  · rw [List.getElem?_set_ne (by omega),
      List.getElem?_set_self (by simpa using h2a)]
    rw [← hb, hv2]
  · rw [List.getElem?_set_self (by simpa using h5a)]
    rw [← hb, hv5]
  · intro j hj2 hj5
    rw [List.getElem?_set_ne (fun h => hj5 h.symm),
      List.getElem?_set_ne (fun h => hj2 h.symm)]
  · intro k hk
    exact List.getElem?_set_ne (fun h => hk h.symm)

/-- Witness for C1 on a concrete six-particle, one-group Space where the trial
differs at offsets 2 and 5. -/
theorem C1_sync_frame_witness :
    ∃ s' : SpaceRec,
      SpaceRec.sync
          ⟨[⟨0, ⟨0, 0, 0⟩⟩, ⟨1, ⟨0, 0, 0⟩⟩, ⟨2, ⟨0, 0, 0⟩⟩,
            ⟨3, ⟨0, 0, 0⟩⟩, ⟨4, ⟨0, 0, 0⟩⟩, ⟨5, ⟨0, 0, 0⟩⟩], 6,
            [⟨0, 6, 6, 7, false, ⟨0, 0, 0⟩⟩]⟩
          ⟨[⟨0, ⟨0, 0, 0⟩⟩, ⟨1, ⟨0, 0, 0⟩⟩, ⟨2, ⟨9, 9, 9⟩⟩,
            ⟨3, ⟨0, 0, 0⟩⟩, ⟨4, ⟨0, 0, 0⟩⟩, ⟨5, ⟨8, 8, 8⟩⟩], 6,
            [⟨0, 6, 6, 7, false, ⟨0, 0, 0⟩⟩]⟩
          { dV := 0, groups := [⟨0, false, [2, 5], [], []⟩] } = .ok s' ∧
      s'.p[0 + 2]? =
        ([⟨0, ⟨0, 0, 0⟩⟩, ⟨1, ⟨0, 0, 0⟩⟩, ⟨2, ⟨9, 9, 9⟩⟩,
          ⟨3, ⟨0, 0, 0⟩⟩, ⟨4, ⟨0, 0, 0⟩⟩, ⟨5, ⟨8, 8, 8⟩⟩] : List Particle)[0 + 2]? ∧
      s'.p[0 + 5]? =
        ([⟨0, ⟨0, 0, 0⟩⟩, ⟨1, ⟨0, 0, 0⟩⟩, ⟨2, ⟨9, 9, 9⟩⟩,
          ⟨3, ⟨0, 0, 0⟩⟩, ⟨4, ⟨0, 0, 0⟩⟩, ⟨5, ⟨8, 8, 8⟩⟩] : List Particle)[0 + 5]? ∧
      (∀ j, j ≠ 0 + 2 → j ≠ 0 + 5 →
        s'.p[j]? =
          ([⟨0, ⟨0, 0, 0⟩⟩, ⟨1, ⟨0, 0, 0⟩⟩, ⟨2, ⟨0, 0, 0⟩⟩,
            ⟨3, ⟨0, 0, 0⟩⟩, ⟨4, ⟨0, 0, 0⟩⟩, ⟨5, ⟨0, 0, 0⟩⟩] : List Particle)[j]?) ∧
      (∀ k, k ≠ 0 →
        s'.groups[k]? = ([⟨0, 6, 6, 7, false, ⟨0, 0, 0⟩⟩] : List GroupRec)[k]?) :=
  C1_sync_frame
    ⟨[⟨0, ⟨0, 0, 0⟩⟩, ⟨1, ⟨0, 0, 0⟩⟩, ⟨2, ⟨0, 0, 0⟩⟩,
      ⟨3, ⟨0, 0, 0⟩⟩, ⟨4, ⟨0, 0, 0⟩⟩, ⟨5, ⟨0, 0, 0⟩⟩], 6,
      [⟨0, 6, 6, 7, false, ⟨0, 0, 0⟩⟩]⟩
    ⟨[⟨0, ⟨0, 0, 0⟩⟩, ⟨1, ⟨0, 0, 0⟩⟩, ⟨2, ⟨9, 9, 9⟩⟩,
      ⟨3, ⟨0, 0, 0⟩⟩, ⟨4, ⟨0, 0, 0⟩⟩, ⟨5, ⟨8, 8, 8⟩⟩], 6,
      [⟨0, 6, 6, 7, false, ⟨0, 0, 0⟩⟩]⟩
    0 0 ⟨0, 6, 6, 7, false, ⟨0, 0, 0⟩⟩ ⟨0, 6, 6, 7, false, ⟨0, 0, 0⟩⟩
    rfl rfl rfl rfl
    (by decide) (by decide) (by decide) (by decide)

/-- C6 (code bug): with equal capacities (2 and 2) and both active sizes 1,
`Group::operator=` copies id, atomic flag and mass center and leaves the
particle buffer alone, but `resize(o.size())` is `end() += o.size()`, so the
target's active size becomes 2, not the source's 1 — the active/inactive
partition is not copied (violating `IterRange::resize`'s own
`assert(size()==n)`); with differing capacities it reports
`"capacity mismatch"` as the claim states. -/
theorem C6_group_assign_bug :
    groupAssign ⟨0, 1, 2, 3, false, ⟨0, 0, 0⟩⟩ ⟨0, 1, 2, 9, true, ⟨1, 2, 3⟩⟩
      = .ok ⟨0, 2, 2, 9, true, ⟨1, 2, 3⟩⟩ ∧
    (GroupRec.size ⟨0, 2, 2, 9, true, ⟨1, 2, 3⟩⟩ = 2 ∧
      GroupRec.size ⟨0, 1, 2, 9, true, ⟨1, 2, 3⟩⟩ = 1) ∧
    groupAssign ⟨0, 1, 2, 3, false, ⟨0, 0, 0⟩⟩ ⟨0, 1, 3, 9, true, ⟨1, 2, 3⟩⟩
      = .error "capacity mismatch" := by
  refine ⟨rfl, ⟨rfl, rfl⟩, rfl⟩

/-! ## Space::push_back (`src/core.h` lines 1508-1531)

On reallocation the group windows are re-derived by offset from
`groups[0].begin()`; the check meant to verify the relocation reads
`size_t size=g.size(), capacity=g.size();` — the second initializer is
`g.size()`, not `g.capacity()` — and then compares `capacity != g.capacity()`,
throwing `"Group relocation error"`. -/

/-- One group's relocation step inside `push_back`'s `resized` loop:
records `size = g.size()` and `capacity = g.size()` (the source's initializer,
verbatim), shifts the three endpoints by the reference offset, then performs
the source's `size!=g.size() || capacity!=g.capacity()` check. -/
def relocCheck (shift : Nat) (g : GroupRec) : Except String GroupRec :=
  let size := g.size
  let capacityVar := g.size
  let g' : GroupRec := { g with
    beginOff := g.beginOff - shift,
    endOff := g.endOff - shift,
    trueEndOff := g.trueEndOff - shift }
  if size ≠ g'.size ∨ capacityVar ≠ g'.capacity then .error "Group relocation error"
  else .ok g'

/-- Relocation of the groups after the first: the loop re-reads
`groups[0].begin()`, which the first iteration has already rebased to
`p.begin()`, so these are shifted by the rebased first offset. -/
def relocRest (shift : Nat) : List GroupRec → Except String (List GroupRec)
  | [] => .ok []
  | g :: rest =>
      match relocCheck shift g with
      | .error e => .error e
      | .ok g' =>
          match relocRest shift rest with
          | .error e => .error e
          | .ok rest' => .ok (g' :: rest')

/-- The `resized` loop of `push_back`: the first group is rebased against its
own old begin offset (landing at offset 0), the rest against the
already-rebased first group's begin. -/
def relocateGroups : List GroupRec → Except String (List GroupRec)
  | [] => .ok []
  | g0 :: rest =>
      match relocCheck g0.beginOff g0 with
      | .error e => .error e
      | .ok g0' =>
          match relocRest g0'.beginOff rest with
          | .error e => .error e
          | .ok rest' => .ok (g0' :: rest')

/-- The C++ `Space::push_back(molid, in)`: append the particles; if the vector
had to grow, rebase every group window and run the relocation check; then
append a new group over the appended particles.  The `std::vector` growth
policy is implementation-defined; reallocation is modelled as growing the
capacity to the exact new length, which does not affect any claim. -/
def SpaceRec.push_back (s : SpaceRec) (molid : Int) (inP : List Particle) :
    Except String SpaceRec :=
  let p' := s.p ++ inP
  let resized : Bool := decide (s.p.length + inP.length > s.pcap)
  let pcap' := if resized then p'.length else s.pcap
  let groupsRes := if resized then relocateGroups s.groups else .ok s.groups
  let newG : GroupRec := { beginOff := p'.length - inP.length,
                           endOff := p'.length, trueEndOff := p'.length,
                           id := molid, atomic := false, cm := ⟨0, 0, 0⟩ }
  match groupsRes with
  | .error e => .error e
  | .ok gs => .ok { p := p', pcap := pcap', groups := gs ++ [newG] }

/-- C7 (code bug): pushing one particle onto a full Space (length 2, capacity
2) holding one group with an inactive element (window `[0,2)`, active size 1)
reallocates the buffer, and `push_back` throws `"Group relocation error"` —
the relocation check compares the group's capacity against a variable
initialized to `g.size()` — although the relocation left the window intact and
the claim requires the call to succeed, preserve the group, and append a new
group. -/
theorem C7_push_back_relocation_bug :
    SpaceRec.push_back
        ⟨[⟨0, ⟨0, 0, 0⟩⟩, ⟨1, ⟨0, 0, 0⟩⟩], 2, [⟨0, 1, 2, 4, false, ⟨0, 0, 0⟩⟩]⟩
        7 [⟨2, ⟨0, 0, 0⟩⟩]
      = .error "Group relocation error" := by
  rfl

/-! ## MoleculeData conformations (`src/molecule.h` lines 112-216)

`confDist` is a `std::discrete_distribution<>`; default construction yields the
single-outcome distribution with `probabilities() = {1}`, and construction from
a weight list yields probabilities normalized to sum 1.  We embed the
distribution by its `probabilities()` vector. -/

/-- Probabilities of `std::discrete_distribution` built from weights `w`:
each weight divided by the total. -/
def normalizeProbs (w : List ℚ) : List ℚ :=
  w.map (fun x => x / w.sum)

/-- The conformation-related state of `MoleculeData`: stored conformations and
the selection distribution's `probabilities()` vector (getRandomConformation
draws an index from exactly this distribution). -/
structure MoleculeData where
  conformations : List (List Particle)
  confDist : List ℚ
deriving DecidableEq, Repr

/-- Default-constructed `MoleculeData`: no conformations, default-constructed
`std::discrete_distribution` (probabilities `{1}`). -/
def MoleculeData.default : MoleculeData :=
  { conformations := [], confDist := [1] }

/-- The C++ `MoleculeData::pushConformation(vec, weight = 1)`: if conformations
already exist, fetch the current distribution's `probabilities()` (already
normalized), append the new weight, and rebuild the distribution; then store
the conformation.  On the first call the distribution is left untouched (the
first weight argument is never read). -/
def MoleculeData.pushConformation (m : MoleculeData) (vec : List Particle)
    (weight : ℚ) : MoleculeData :=
  if m.conformations.isEmpty then
    { m with conformations := m.conformations ++ [vec] }
  else
    { conformations := m.conformations ++ [vec],
      confDist := normalizeProbs (m.confDist ++ [weight]) }

/-- C8 (code bug): after three `pushConformation` calls all using the default
weight 1, the selection distribution is `[1/4, 1/4, 1/2]` — the third
conformation is drawn twice as often as the others although all supplied
weights are equal, because the code appends the raw new weight to the
already-normalized probabilities of the previous distribution.  (The claimed
weight-proportional distribution would be uniform here.)  Moreover the first
call's weight is discarded outright: pushing weights 5 then 1 yields
`[1/2, 1/2]` instead of the claimed `[5/6, 1/6]`. -/
theorem C8_conformation_weights_bug :
    (((MoleculeData.default.pushConformation [] 1).pushConformation [] 1).pushConformation
        [] 1).confDist = [1/4, 1/4, 1/2] ∧
    ((((MoleculeData.default.pushConformation [] 1).pushConformation [] 1).pushConformation
        [] 1).confDist ≠ [1/3, 1/3, 1/3]) ∧
    ((MoleculeData.default.pushConformation [] 5).pushConformation [] 1).confDist
      = [1/2, 1/2] := by
  refine ⟨?_, ?_, ?_⟩ <;>
    norm_num [MoleculeData.default, MoleculeData.pushConformation, normalizeProbs]

/-! ## Random (`src/core.h` lines 209-257)

`Random` holds a `std::mt19937` engine.  The engine is the standard-specified
Mersenne twister on 624 32-bit words; its stream serialization (used by
`to_json` / `from_json` through `"randomseed"`) writes the textual state —
the 624 words followed by the read position — and reading it back restores
that state exactly.  We embed the textual token as the corresponding list of
numbers.  `dist01` (`std::uniform_real_distribution`) is stateless; the number
of engine words it consumes per draw is implementation detail and is modelled
as one word scaled into `[0,1)`, which does not affect determinism. -/

/-- Mersenne-twister engine state: word array plus read position. -/
structure MTState where
  words : List Nat
  idx : Nat
deriving DecidableEq, Repr

/-- The mt19937 tempering transform (32-bit). -/
def mtTemper (y : Nat) : Nat :=
  let y1 := y ^^^ (y >>> 11)
  let y2 := y1 ^^^ ((y1 <<< 7) &&& 2636928640)
  let y3 := y2 ^^^ ((y2 <<< 15) &&& 4022730752)
  (y3 ^^^ (y3 >>> 18)) &&& 4294967295

/-- One in-place step of the mt19937 twist at position `i`. -/
def twistStep (w : List Nat) (i : Nat) : List Nat :=
  let n := w.length
  let x := ((w.getD i 0) &&& 2147483648) ||| ((w.getD ((i + 1) % n) 0) &&& 2147483647)
  let xA := if x % 2 = 1 then (x >>> 1) ^^^ 2567483615 else x >>> 1
  w.set i ((w.getD ((i + 397) % n) 0) ^^^ xA)

/-- Full state regeneration (twist) of the engine. -/
def mtTwist (w : List Nat) : List Nat :=
  (List.range w.length).foldl twistStep w

/-- Produce the next 32-bit output and successor state. -/
def mtNext (s : MTState) : Nat × MTState :=
  let s' := if s.idx ≥ s.words.length then MTState.mk (mtTwist s.words) 0 else s
  (mtTemper (s'.words.getD s'.idx 0), MTState.mk s'.words (s'.idx + 1))

/-- The `Random` struct: the engine (the `dist01` member carries no state). -/
structure Random where
  engine : MTState
deriving DecidableEq, Repr

/-- The C++ `Random::operator()`: a uniform draw in `[0,1)` from `dist01`
applied to the engine — one engine word scaled by `2^32`. -/
def Random.next01 (r : Random) : ℚ × Random :=
  let p := mtNext r.engine
  ((p.1 : ℚ) / 4294967296, Random.mk p.2)

/-- The sequence of the next `n` draws from a generator. -/
def Random.draws (r : Random) : Nat → List ℚ
  | 0 => []
  | n + 1 => r.next01.1 :: r.next01.2.draws n

/-- The C++ `to_json(json&, const Random&)`: serialize the engine state into
the `"randomseed"` token (`o << r.engine` writes the state words and the read
position). -/
def toJsonRandom (r : Random) : List Nat :=
  r.engine.words ++ [r.engine.idx]

/-- The C++ `from_json(const json&, Random&)` on a captured numeric token:
an empty token leaves the generator untouched, otherwise `s >> r.engine`
restores the serialized state.  (The `"hardware"` branch draws a
nondeterministic seed and is never produced by `to_json`.) -/
def fromJsonRandom (r : Random) (seed : List Nat) : Random :=
  if seed.isEmpty then r
  else Random.mk (MTState.mk seed.dropLast ((seed.getLast?).getD 0))

/-- Restoring a generator from a captured token recovers the exact state. -/
theorem fromJson_toJson (r0 r : Random) :
    fromJsonRandom r0 (toJsonRandom r) = r := by
  simp [fromJsonRandom, toJsonRandom]

/-- C9: restoring a second generator from a token captured off any generator
state yields a generator whose subsequent draw sequence is identical, of every
length, to the one the original generator produces from that point. -/
theorem C9_random_restore_determinism (r fresh : Random) (n : Nat) :
    (fromJsonRandom fresh (toJsonRandom r)).draws n = r.draws n := by
  rw [fromJson_toJson]

/-! ## Catalog list deserializer (`src/core.h` lines 680-691)

`from_json(const json&, std::vector<T>&)` appends one entry per JSON key and
then sets `v.back().id() = v.size()-1`. -/

/-- Catalog entry as far as the deserializer is concerned: a payload (the
parsed fields, represented by the name) and the `id()` field that the
deserializer overwrites. -/
structure Entry where
  name : String
  id : Int
deriving DecidableEq, Repr

/-- The C++ `from_json(const json&, std::vector<T>&)`: for each parsed entry,
push it and set `v.back().id() = v.size()-1`. -/
def listFromJson (v : List Entry) (parsed : List Entry) : List Entry :=
  parsed.foldl (fun acc e => acc ++ [{ e with id := (acc.length : Int) }]) v

/-- Appending via the deserializer preserves the id-equals-index invariant. -/
theorem listFromJson_ids (v : List Entry) (parsed : List Entry)
    (hv : ∀ i (h : i < v.length), (v.get ⟨i, h⟩).id = i) :
    ∀ i (h : i < (listFromJson v parsed).length),
      ((listFromJson v parsed).get ⟨i, h⟩).id = i := by
  induction parsed generalizing v with
  | nil => exact hv
  | cons e rest ih =>
      refine ih (v ++ [{ e with id := (v.length : Int) }]) ?_
      intro i h
      simp only [List.length_append, List.length_singleton] at h
      rcases Nat.lt_or_ge i v.length with hlt | hge
      · have := hv i hlt
        simpa [List.get_eq_getElem, List.getElem_append_left hlt] using this
      · have hieq : i = v.length := by omega
        subst hieq
        simp [List.get_eq_getElem, List.getElem_concat_length]

/-- C10: after any sequence of catalog loads through the list deserializer,
starting from the initially empty global list (and thus including loads that
append to an already non-empty list), every entry at vector index `i` has
`id() = i`. -/
theorem C10_catalog_ids (batches : List (List Entry)) :
    ∀ i (h : i < (batches.foldl listFromJson []).length),
      ((batches.foldl listFromJson []).get ⟨i, h⟩).id = i := by
  have key : ∀ (bs : List (List Entry)) (v : List Entry),
      (∀ i (h : i < v.length), (v.get ⟨i, h⟩).id = i) →
      ∀ i (h : i < (bs.foldl listFromJson v).length),
        ((bs.foldl listFromJson v).get ⟨i, h⟩).id = i := by
    intro bs
    induction bs with
    | nil => intro v hv; exact hv
    | cons b rest ih =>
        intro v hv
        exact ih (listFromJson v b) (listFromJson_ids v b hv)
  exact key batches [] (by intro i h; simp at h)

/-- Witness for C10 on two concrete loads appended to an initially empty
list. -/
theorem C10_catalog_ids_witness :
    ((([[⟨"A", 99⟩, ⟨"B", 5⟩], [⟨"C", 7⟩]] : List (List Entry)).foldl
        listFromJson []).get ⟨2, by decide⟩).id = 2 :=
  C10_catalog_ids [[⟨"A", 99⟩, ⟨"B", 5⟩], [⟨"C", 7⟩]] 2 (by decide)

end Faunus
